import Mathlib

/-!
Shallow embedding of the RTS (Real-time Station data, version 1) binary
decoder, translated from the repository's reference implementations
(`src/golang/rts.go` and `src/javascript/rts.js`, which implement the same
algorithm over a byte source).

The byte source is a `List Nat` of byte values together with a cursor
offset; each primitive reader is a pure function
`(bytes, offset) → Except Err (value × new offset)`, mirroring the
JavaScript `DataView`/offset cursor and the Go `io.Reader` state (both
abort decoding on the first error, so a pure cursor model is faithful).
The predicate `IsByteList` states the well-formedness guarantee of a real
byte source (every entry fits in 8 bits); theorems assume it only where a
byte bound is actually needed.  Floating-point values produced by the
decoder (VarInt results and intensities) are modelled as exact rationals:
every arithmetic step in the source (`/100.0`, `/10.0`, `- 3.0`,
`round(x*10)/10`) is represented by the corresponding exact operation on
`ℚ`.
-/

namespace RTS

/-- Constant `SupportedVersion` from the source (Go `SupportedVersion`,
JS `SUPPORTED_VERSION`). -/
def SupportedVersion : Nat := 1

/-- Constant `Epoch`: 2026-01-01T00:00:00Z in Unix milliseconds
(Go `Epoch`, JS `EPOCH_2026_MS`). -/
def Epoch : Int := 1767225600000

/-- Constant `VarIntScale` (Go `VarIntScale`, JS `VARINT_SCALE`). -/
def VarIntScale : ℚ := 100

/-- Constant `IntensityOffset` (Go `IntensityOffset`, JS `INTENSITY_OFFSET`). -/
def IntensityOffset : ℚ := 3

/-- Decoded header (`RTSHeader` in Go, the `header` object in JS). -/
structure RTSHeader where
  version : Nat
  timestampMs : Int
  stationCount : Nat
  intCount : Nat
  reserved : Nat
deriving DecidableEq

/-- Decoded station record (`Station` in Go). -/
structure Station where
  id : Nat
  pga : ℚ
  pgv : ℚ
  intensity : ℚ
  isAlert : Bool
deriving DecidableEq

/-- Decoded area-intensity record (`AreaIntensity` in Go). -/
structure AreaIntensity where
  code : Nat
  intensity : ℚ
deriving DecidableEq

/-- Decode result (`RTSData` in Go). -/
structure RTSData where
  header : RTSHeader
  stations : List Station
  areaIntensities : List AreaIntensity
deriving DecidableEq

/-- Decode errors.  `eof` is the JS
`Unexpected EOF: expected ${size} bytes` throw (it carries only the
required size; Go's `io.ErrUnexpectedEOF` carries even less).
`unsupportedVersion` is the `Unsupported RTS version: ${v}` throw; it
carries the offending version byte. -/
inductive Err where
  | eof (expected : Nat)
  | unsupportedVersion (v : Nat)
deriving DecidableEq

/-- Error message rendered by the JS implementation for each error. -/
def Err.message : Err → String
  | .eof expected => "Unexpected EOF: expected " ++ toString expected ++ " bytes"
  | .unsupportedVersion v => "Unsupported RTS version: " ++ toString v

/-- Well-formedness of a byte source: every entry fits in 8 bits. -/
def IsByteList (b : List Nat) : Prop := ∀ x ∈ b, x < 256

/-- Byte at index `i` of the source, as a natural number.  (The readers
below bounds-check before accessing, so the out-of-range default is never
observed in a decode result.) -/
def u8 (b : List Nat) (i : Nat) : Nat := b.getD i 0

/-- JS `_checkBounds(size)`: fail iff fewer than `size` bytes remain past
the cursor (Go's `readExact`/`io.ReadFull` fails under exactly the same
condition). -/
def checkBounds (b : List Nat) (off size : Nat) : Except Err Unit :=
  if off + size > b.length then Except.error (Err.eof size) else Except.ok ()

/-- Reader `readU8` / `_readU8`. -/
def readU8 (b : List Nat) (off : Nat) : Except Err (Nat × Nat) :=
  match checkBounds b off 1 with
  | Except.error e => Except.error e
  | Except.ok _ => Except.ok (u8 b off, off + 1)

/-- Reader `readU16` / `_readU16`: little-endian 16-bit. -/
def readU16 (b : List Nat) (off : Nat) : Except Err (Nat × Nat) :=
  match checkBounds b off 2 with
  | Except.error e => Except.error e
  | Except.ok _ => Except.ok (u8 b off + (u8 b (off + 1)) <<< 8, off + 2)

/-- Reader `readU32` / `_readU32`: little-endian 32-bit. -/
def readU32 (b : List Nat) (off : Nat) : Except Err (Nat × Nat) :=
  match checkBounds b off 4 with
  | Except.error e => Except.error e
  | Except.ok _ =>
    Except.ok (u8 b off + (u8 b (off + 1)) <<< 8 + (u8 b (off + 2)) <<< 16
      + (u8 b (off + 3)) <<< 24, off + 4)

/-- Little-endian combination of the 5 timestamp bytes.  The sources
combine the byte lanes with `|` (Go) / `|` on BigInt (JS); the lanes are
disjoint, so the combination is written as the equal sum of shifted
lanes. -/
def le40 (b : List Nat) (off : Nat) : Nat :=
  u8 b off + (u8 b (off + 1)) <<< 8 + (u8 b (off + 2)) <<< 16
    + (u8 b (off + 3)) <<< 24 + (u8 b (off + 4)) <<< 32

/-- Sign extension of a 40-bit raw value, as in the JS source: test bit 39
with a mask, and subtract `2^40` when it is set (Go's `raw << 24 >> 24`
arithmetic-shift pair computes the same function on the same range). -/
def signExtend40 (raw : Nat) : Int :=
  if raw &&& (1 <<< 39) ≠ 0 then (raw : Int) - (1 <<< 40) else (raw : Int)

/-- Reader `readTime40` / `_readTime40`: 5 bytes little-endian,
sign-extended at bit 39, plus the epoch constant. -/
def readTime40 (b : List Nat) (off : Nat) : Except Err (Int × Nat) :=
  match checkBounds b off 5 with
  | Except.error e => Except.error e
  | Except.ok _ => Except.ok (Epoch + signExtend40 (le40 b off), off + 5)

/-- Reader `readVarInt` / `_readVarInt`: marker byte selects a 0/2/3-byte
payload; the result is the raw value divided by `VarIntScale`.  Marker
`0xFF` is undefined and yields raw value 0 with no payload consumed. -/
def readVarInt (b : List Nat) (off : Nat) : Except Err (ℚ × Nat) :=
  match readU8 b off with
  | Except.error e => Except.error e
  | Except.ok (marker, off1) =>
    if marker ≤ 0xFC then
      Except.ok ((marker : ℚ) / VarIntScale, off1)
    else if marker = 0xFD then
      match readU16 b off1 with
      | Except.error e => Except.error e
      | Except.ok (v, off2) => Except.ok ((v : ℚ) / VarIntScale, off2)
    else if marker = 0xFE then
      match checkBounds b off1 3 with
      | Except.error e => Except.error e
      | Except.ok _ =>
        Except.ok (((u8 b off1 + (u8 b (off1 + 1)) <<< 8
          + (u8 b (off1 + 2)) <<< 16 : Nat) : ℚ) / VarIntScale, off1 + 3)
    else
      Except.ok (0, off1)

/-- Rounding used by the decoder: Go's `math.Round` (round to nearest
integer, halves away from zero).  In the decoder it is only ever applied
to values that are exact integers in this rational model, where JS
`Math.round` agrees with it. -/
def roundAway (q : ℚ) : ℤ :=
  if q < 0 then -⌊(1 / 2 : ℚ) - q⌋ else ⌊q + (1 / 2 : ℚ)⌋

/-- Reader `readIntensityAlert` / `_readIntensityAlert`: one byte; bits
0–6 give the intensity magnitude, bit 7 the alert flag. -/
def readIntensityAlert (b : List Nat) (off : Nat) :
    Except Err ((ℚ × Bool) × Nat) :=
  match readU8 b off with
  | Except.error e => Except.error e
  | Except.ok (raw, off1) =>
    let val : ℚ := ((raw &&& 0x7F : Nat) : ℚ) / 10 - IntensityOffset
    let intensity : ℚ := ((roundAway (val * 10) : ℤ) : ℚ) / 10
    let isAlert : Bool := raw &&& 0x80 != 0
    Except.ok ((intensity, isAlert), off1)

/-- Body of the station loop in `Parse` / `parse`: decode one station
record (`id`, `pga`, `pgv`, intensity/alert byte, in this order). -/
def parseStation (b : List Nat) (off : Nat) : Except Err (Station × Nat) :=
  match readU32 b off with
  | Except.error e => Except.error e
  | Except.ok (id, off1) =>
  match readVarInt b off1 with
  | Except.error e => Except.error e
  | Except.ok (pga, off2) =>
  match readVarInt b off2 with
  | Except.error e => Except.error e
  | Except.ok (pgv, off3) =>
  match readIntensityAlert b off3 with
  | Except.error e => Except.error e
  | Except.ok ((intensity, isAlert), off4) =>
    Except.ok (⟨id, pga, pgv, intensity, isAlert⟩, off4)

/-- Station loop of `Parse` / `parse`: decode exactly `n` station records
in wire order. -/
def parseStations (b : List Nat) : Nat → Nat → Except Err (List Station × Nat)
  | 0, off => Except.ok ([], off)
  | n + 1, off =>
    match parseStation b off with
    | Except.error e => Except.error e
    | Except.ok (s, off1) =>
      match parseStations b n off1 with
      | Except.error e => Except.error e
      | Except.ok (rest, off2) => Except.ok (s :: rest, off2)

/-- Body of the area-intensity loop in `Parse` / `parse`: `code` (u16)
and one raw intensity byte.  Note the source applies the intensity formula
to the FULL raw byte here (`float64(rawI)` in Go, `rawI` in JS) — there is
no `& 0x7F` mask and no alert bit for this record type. -/
def parseAreaIntensity (b : List Nat) (off : Nat) :
    Except Err (AreaIntensity × Nat) :=
  match readU16 b off with
  | Except.error e => Except.error e
  | Except.ok (code, off1) =>
  match readU8 b off1 with
  | Except.error e => Except.error e
  | Except.ok (rawI, off2) =>
    let val : ℚ := (rawI : ℚ) / 10 - IntensityOffset
    Except.ok (⟨code, ((roundAway (val * 10) : ℤ) : ℚ) / 10⟩, off2)

/-- Area-intensity loop of `Parse` / `parse`: decode exactly `n` records
in wire order. -/
def parseAreaIntensities (b : List Nat) :
    Nat → Nat → Except Err (List AreaIntensity × Nat)
  | 0, off => Except.ok ([], off)
  | n + 1, off =>
    match parseAreaIntensity b off with
    | Except.error e => Except.error e
    | Except.ok (a, off1) =>
      match parseAreaIntensities b n off1 with
      | Except.error e => Except.error e
      | Except.ok (rest, off2) => Except.ok (a :: rest, off2)

/-- Top-level `Parse` / `parse`: version check, header, station loop,
area-intensity loop. -/
def parse (b : List Nat) : Except Err RTSData :=
  match readU8 b 0 with
  | Except.error e => Except.error e
  | Except.ok (version, off0) =>
    if version ≠ SupportedVersion then
      Except.error (Err.unsupportedVersion version)
    else
      match readTime40 b off0 with
      | Except.error e => Except.error e
      | Except.ok (timestampMs, off1) =>
      match readU16 b off1 with
      | Except.error e => Except.error e
      | Except.ok (stationCount, off2) =>
      match readU16 b off2 with
      | Except.error e => Except.error e
      | Except.ok (intCount, off3) =>
      match readU16 b off3 with
      | Except.error e => Except.error e
      | Except.ok (reserved, off4) =>
        match parseStations b stationCount off4 with
        | Except.error e => Except.error e
        | Except.ok (stations, off5) =>
          match parseAreaIntensities b intCount off5 with
          | Except.error e => Except.error e
          | Except.ok (areaIntensities, _) =>
            Except.ok
              ⟨⟨version, timestampMs, stationCount, intCount, reserved⟩,
               stations, areaIntensities⟩

end RTS

deriving instance DecidableEq for Except

namespace RTS

/-! ### Basic facts about the cursor primitives -/

theorem checkBounds_ok {b : List Nat} {off size : Nat} :
    checkBounds b off size = Except.ok () ↔ off + size ≤ b.length := by
  unfold checkBounds
  split <;> rename_i h
  · simp only [reduceCtorEq, false_iff]
    omega
  · simp only [true_iff]
    omega

theorem checkBounds_error {b : List Nat} {off size : Nat} {e : Err} :
    checkBounds b off size = Except.error e ↔
      b.length < off + size ∧ e = Err.eof size := by
  unfold checkBounds
  split <;> rename_i h
  · simp only [Except.error.injEq]
    constructor
    · rintro rfl
      exact ⟨by omega, rfl⟩
    · rintro ⟨-, rfl⟩
      rfl
  · simp only [reduceCtorEq, false_iff, not_and]
    intro h1
    omega

theorem u8_lt {b : List Nat} (hb : IsByteList b) (i : Nat) : u8 b i < 256 := by
  unfold u8
  by_cases hi : i < b.length
  · rw [List.getD_eq_getElem?_getD, List.getElem?_eq_getElem hi]
    simpa using hb _ (List.getElem_mem hi)
  · rw [List.getD_eq_getElem?_getD, List.getElem?_eq_none (by omega)]
    simp

theorem roundAway_intCast (k : ℤ) : roundAway (k : ℚ) = k := by
  unfold roundAway
  split
  · rw [Int.floor_sub_int]
    norm_num
  · rw [Int.floor_int_add]
    norm_num

theorem intensity_eq (m : Nat) :
    ((roundAway (((m : ℚ) / 10 - IntensityOffset) * 10) : ℤ) : ℚ) / 10
      = ((m : ℚ) - 30) / 10 := by
  have h : ((m : ℚ) / 10 - IntensityOffset) * 10 = ((m : ℤ) - 30 : ℤ) := by
    unfold IntensityOffset
    push_cast
    ring
  rw [h, roundAway_intCast]
  push_cast
  ring

theorem and_pow_ne_zero_iff {raw k : Nat} (h : raw < 2 ^ (k + 1)) :
    raw &&& (1 <<< k) ≠ 0 ↔ 2 ^ k ≤ raw := by
  rw [Nat.shiftLeft_eq, one_mul, Nat.and_two_pow]
  constructor
  · intro hne
    have ht : raw.testBit k = true := by
      cases hbit : raw.testBit k with
      | false => simp [hbit] at hne
      | true => rfl
    exact Nat.testBit_implies_ge ht
  · intro hle
    have hdiv : raw / 2 ^ k = 1 := by
      have h2 : 0 < 2 ^ k := Nat.pos_pow_of_pos k (by omega)
      have hlt : raw / 2 ^ k < 2 := by
        rw [Nat.div_lt_iff_lt_mul h2]
        calc raw < 2 ^ (k + 1) := h
        _ = 2 * 2 ^ k := by rw [Nat.pow_succ]; ring
      have hge : 1 ≤ raw / 2 ^ k := (Nat.one_le_div_iff h2).2 hle
      omega
    have ht : raw.testBit k = true := by
      rw [Nat.testBit_to_div_mod, hdiv]
      decide
    rw [ht]
    simp only [Bool.toNat_true, one_mul]
    have hpos : 0 < 2 ^ k := Nat.pos_pow_of_pos k (by omega)
    omega

end RTS

namespace RTS

/-! ### Success characterizations of the primitive readers -/

theorem readU8_eq {b : List Nat} {off : Nat} (h : off + 1 ≤ b.length) :
    readU8 b off = Except.ok (u8 b off, off + 1) := by
  unfold readU8
  rw [checkBounds_ok.mpr h]

theorem readU16_eq {b : List Nat} {off : Nat} (h : off + 2 ≤ b.length) :
    readU16 b off = Except.ok (u8 b off + u8 b (off + 1) * 2 ^ 8, off + 2) := by
  unfold readU16
  rw [checkBounds_ok.mpr h, Nat.shiftLeft_eq]

theorem readU32_eq {b : List Nat} {off : Nat} (h : off + 4 ≤ b.length) :
    readU32 b off = Except.ok (u8 b off + u8 b (off + 1) * 2 ^ 8
      + u8 b (off + 2) * 2 ^ 16 + u8 b (off + 3) * 2 ^ 24, off + 4) := by
  unfold readU32
  rw [checkBounds_ok.mpr h, Nat.shiftLeft_eq, Nat.shiftLeft_eq, Nat.shiftLeft_eq]

theorem le40_eq (b : List Nat) (off : Nat) :
    le40 b off = u8 b off + u8 b (off + 1) * 2 ^ 8 + u8 b (off + 2) * 2 ^ 16
      + u8 b (off + 3) * 2 ^ 24 + u8 b (off + 4) * 2 ^ 32 := by
  unfold le40
  rw [Nat.shiftLeft_eq, Nat.shiftLeft_eq, Nat.shiftLeft_eq, Nat.shiftLeft_eq]

theorem le40_lt {b : List Nat} (hb : IsByteList b) (off : Nat) :
    le40 b off < 2 ^ 40 := by
  have h0 := u8_lt hb off
  have h1 := u8_lt hb (off + 1)
  have h2 := u8_lt hb (off + 2)
  have h3 := u8_lt hb (off + 3)
  have h4 := u8_lt hb (off + 4)
  rw [le40_eq]
  simp only [show (2 : ℕ) ^ 8 = 256 from by norm_num,
    show (2 : ℕ) ^ 16 = 65536 from by norm_num,
    show (2 : ℕ) ^ 24 = 16777216 from by norm_num,
    show (2 : ℕ) ^ 32 = 4294967296 from by norm_num,
    show (2 : ℕ) ^ 40 = 1099511627776 from by norm_num]
  omega

theorem signExtend40_eq {raw : Nat} (h : raw < 2 ^ 40) :
    signExtend40 raw = (raw : Int) - (if 2 ^ 39 ≤ raw then 2 ^ 40 else 0) := by
  have hiff := @and_pow_ne_zero_iff raw 39 (by norm_num at h ⊢; omega)
  unfold signExtend40
  by_cases hc : 2 ^ 39 ≤ raw
  · rw [if_pos (hiff.mpr hc), if_pos hc]
    norm_num [Nat.shiftLeft_eq]
  · rw [if_neg (fun hx => hc (hiff.mp hx)), if_neg hc]
    omega

theorem readTime40_eq {b : List Nat} {off : Nat} (hb : IsByteList b)
    (h : off + 5 ≤ b.length) :
    readTime40 b off = Except.ok (Epoch + ((le40 b off : Int)
      - (if 2 ^ 39 ≤ le40 b off then 2 ^ 40 else 0)), off + 5) := by
  unfold readTime40
  rw [checkBounds_ok.mpr h, signExtend40_eq (le40_lt hb off)]

end RTS

namespace RTS

theorem readVarInt_small {b : List Nat} {off : Nat} (h : off + 1 ≤ b.length)
    (hm : u8 b off ≤ 0xFC) :
    readVarInt b off = Except.ok ((u8 b off : ℚ) / 100, off + 1) := by
  unfold readVarInt
  rw [readU8_eq h]
  simp only [if_pos hm]
  rfl

theorem readVarInt_fd {b : List Nat} {off : Nat} (hm : u8 b off = 0xFD)
    (h : off + 3 ≤ b.length) :
    readVarInt b off = Except.ok
      (((u8 b (off + 1) + u8 b (off + 2) * 2 ^ 8 : Nat) : ℚ) / 100, off + 3) := by
  unfold readVarInt
  rw [readU8_eq (by omega), hm]
  norm_num [readU16_eq (show off + 1 + 2 ≤ b.length by omega), VarIntScale,
    Nat.add_assoc]

theorem readVarInt_fe {b : List Nat} {off : Nat} (hm : u8 b off = 0xFE)
    (h : off + 4 ≤ b.length) :
    readVarInt b off = Except.ok
      (((u8 b (off + 1) + u8 b (off + 2) * 2 ^ 8
        + u8 b (off + 3) * 2 ^ 16 : Nat) : ℚ) / 100, off + 4) := by
  unfold readVarInt
  rw [readU8_eq (by omega), hm]
  norm_num [checkBounds_ok.mpr (show off + 1 + 3 ≤ b.length by omega),
    VarIntScale, Nat.shiftLeft_eq, Nat.add_assoc]

theorem readVarInt_ff {b : List Nat} {off : Nat} (h : off + 1 ≤ b.length)
    (hm : u8 b off = 0xFF) :
    readVarInt b off = Except.ok (0, off + 1) := by
  unfold readVarInt
  rw [readU8_eq h, hm]
  norm_num

theorem bne_and_128_eq_testBit (raw : Nat) :
    (raw &&& 128 != 0) = raw.testBit 7 := by
  rw [show (128 : Nat) = 2 ^ 7 from by norm_num, Nat.and_two_pow]
  cases h : raw.testBit 7 <;> simp

theorem intensity_eq' (m : Nat) :
    ((roundAway (((m : ℚ) / 10 - IntensityOffset) * 10) : ℤ) : ℚ) / 10
      = (m : ℚ) / 10 - 3 := by
  rw [intensity_eq]
  ring

theorem readIntensityAlert_eq {b : List Nat} {off : Nat}
    (h : off + 1 ≤ b.length) :
    readIntensityAlert b off = Except.ok
      ((((u8 b off &&& 0x7F : Nat) : ℚ) / 10 - 3, (u8 b off).testBit 7),
        off + 1) := by
  unfold readIntensityAlert
  rw [readU8_eq h]
  simp only [intensity_eq', bne_and_128_eq_testBit]

theorem parseAreaIntensity_eq {b : List Nat} {off : Nat}
    (h : off + 3 ≤ b.length) :
    parseAreaIntensity b off = Except.ok
      (⟨u8 b off + u8 b (off + 1) * 2 ^ 8, ((u8 b (off + 2) : Nat) : ℚ) / 10 - 3⟩,
        off + 3) := by
  unfold parseAreaIntensity
  rw [readU16_eq (by omega)]
  norm_num [readU8_eq (show off + 2 + 1 ≤ b.length by omega), intensity_eq',
    Nat.add_assoc]

end RTS

namespace RTS

/-! ### The record loops: length, cons structure and error propagation -/

theorem parseStations_cons {b : List Nat} {n off : Nat} {s : Station}
    {off1 : Nat} {rest : List Station} {off2 : Nat}
    (h1 : parseStation b off = Except.ok (s, off1))
    (h2 : parseStations b n off1 = Except.ok (rest, off2)) :
    parseStations b (n + 1) off = Except.ok (s :: rest, off2) := by
  simp [parseStations, h1, h2]

theorem parseStations_err {b : List Nat} {n off : Nat} {e : Err}
    (h : parseStation b off = Except.error e) :
    parseStations b (n + 1) off = Except.error e := by
  simp [parseStations, h]

theorem parseAreaIntensities_cons {b : List Nat} {n off : Nat}
    {a : AreaIntensity} {off1 : Nat} {rest : List AreaIntensity} {off2 : Nat}
    (h1 : parseAreaIntensity b off = Except.ok (a, off1))
    (h2 : parseAreaIntensities b n off1 = Except.ok (rest, off2)) :
    parseAreaIntensities b (n + 1) off = Except.ok (a :: rest, off2) := by
  simp [parseAreaIntensities, h1, h2]

theorem parseAreaIntensities_err {b : List Nat} {n off : Nat} {e : Err}
    (h : parseAreaIntensity b off = Except.error e) :
    parseAreaIntensities b (n + 1) off = Except.error e := by
  simp [parseAreaIntensities, h]

theorem parseStations_length {b : List Nat} :
    ∀ (n off : Nat) {l : List Station} {off' : Nat},
      parseStations b n off = Except.ok (l, off') → l.length = n := by
  intro n
  induction n with
  | zero =>
    intro off l off' h
    simp only [parseStations, Except.ok.injEq, Prod.mk.injEq] at h
    rw [← h.1]
    rfl
  | succ n ih =>
    intro off l off' h
    simp only [parseStations] at h
    split at h
    · cases h
    · rename_i s off1 heq
      split at h
      · cases h
      · rename_i rest off2 heq2
        simp only [Except.ok.injEq, Prod.mk.injEq] at h
        rw [← h.1]
        simp [ih off1 heq2]

theorem parseAreaIntensities_length {b : List Nat} :
    ∀ (n off : Nat) {l : List AreaIntensity} {off' : Nat},
      parseAreaIntensities b n off = Except.ok (l, off') → l.length = n := by
  intro n
  induction n with
  | zero =>
    intro off l off' h
    simp only [parseAreaIntensities, Except.ok.injEq, Prod.mk.injEq] at h
    rw [← h.1]
    rfl
  | succ n ih =>
    intro off l off' h
    simp only [parseAreaIntensities] at h
    split at h
    · cases h
    · rename_i a off1 heq
      split at h
      · cases h
      · rename_i rest off2 heq2
        simp only [Except.ok.injEq, Prod.mk.injEq] at h
        rw [← h.1]
        simp [ih off1 heq2]

/-! ### Every decode error below the version check is an EOF error -/

theorem checkBounds_error_eof {b : List Nat} {off size : Nat} {e : Err}
    (h : checkBounds b off size = Except.error e) : e = Err.eof size :=
  (checkBounds_error.mp h).2

theorem readU8_error_eof {b : List Nat} {off : Nat} {e : Err}
    (h : readU8 b off = Except.error e) : e = Err.eof 1 := by
  unfold readU8 at h
  split at h
  · rename_i e' heq
    injection h with h'
    rw [← h']
    exact checkBounds_error_eof heq
  · cases h

theorem readU16_error_eof {b : List Nat} {off : Nat} {e : Err}
    (h : readU16 b off = Except.error e) : e = Err.eof 2 := by
  unfold readU16 at h
  split at h
  · rename_i e' heq
    injection h with h'
    rw [← h']
    exact checkBounds_error_eof heq
  · cases h

theorem readU32_error_eof {b : List Nat} {off : Nat} {e : Err}
    (h : readU32 b off = Except.error e) : e = Err.eof 4 := by
  unfold readU32 at h
  split at h
  · rename_i e' heq
    injection h with h'
    rw [← h']
    exact checkBounds_error_eof heq
  · cases h

theorem readTime40_error_eof {b : List Nat} {off : Nat} {e : Err}
    (h : readTime40 b off = Except.error e) : e = Err.eof 5 := by
  unfold readTime40 at h
  split at h
  · rename_i e' heq
    injection h with h'
    rw [← h']
    exact checkBounds_error_eof heq
  · cases h

theorem readVarInt_error_eof {b : List Nat} {off : Nat} {e : Err}
    (h : readVarInt b off = Except.error e) : ∃ k, e = Err.eof k := by
  unfold readVarInt at h
  split at h
  · rename_i e' heq
    injection h with h'
    exact ⟨1, by rw [← h']; exact readU8_error_eof heq⟩
  · rename_i marker off1 heq
    by_cases h1 : marker ≤ 252
    · rw [if_pos h1] at h
      cases h
    · rw [if_neg h1] at h
      by_cases h2 : marker = 253
      · rw [if_pos h2] at h
        split at h
        · rename_i e' heq2
          injection h with h'
          exact ⟨2, by rw [← h']; exact readU16_error_eof heq2⟩
        · cases h
      · rw [if_neg h2] at h
        by_cases h3 : marker = 254
        · rw [if_pos h3] at h
          split at h
          · rename_i e' heq2
            injection h with h'
            exact ⟨3, by rw [← h']; exact checkBounds_error_eof heq2⟩
          · cases h
        · rw [if_neg h3] at h
          cases h

theorem readIntensityAlert_error_eof {b : List Nat} {off : Nat} {e : Err}
    (h : readIntensityAlert b off = Except.error e) : e = Err.eof 1 := by
  unfold readIntensityAlert at h
  split at h
  · rename_i e' heq
    injection h with h'
    rw [← h']
    exact readU8_error_eof heq
  · cases h

theorem parseStation_error_eof {b : List Nat} {off : Nat} {e : Err}
    (h : parseStation b off = Except.error e) : ∃ k, e = Err.eof k := by
  unfold parseStation at h
  split at h
  · rename_i e' heq
    injection h with h'
    exact ⟨4, by rw [← h']; exact readU32_error_eof heq⟩
  · rename_i id off1 heq
    split at h
    · rename_i e' heq2
      injection h with h'
      rw [← h']
      exact readVarInt_error_eof heq2
    · rename_i pga off2 heq2
      split at h
      · rename_i e' heq3
        injection h with h'
        rw [← h']
        exact readVarInt_error_eof heq3
      · rename_i pgv off3 heq3
        split at h
        · rename_i e' heq4
          injection h with h'
          exact ⟨1, by rw [← h']; exact readIntensityAlert_error_eof heq4⟩
        · cases h

theorem parseAreaIntensity_error_eof {b : List Nat} {off : Nat} {e : Err}
    (h : parseAreaIntensity b off = Except.error e) : ∃ k, e = Err.eof k := by
  unfold parseAreaIntensity at h
  split at h
  · rename_i e' heq
    injection h with h'
    exact ⟨2, by rw [← h']; exact readU16_error_eof heq⟩
  · rename_i code off1 heq
    split at h
    · rename_i e' heq2
      injection h with h'
      exact ⟨1, by rw [← h']; exact readU8_error_eof heq2⟩
    · cases h

theorem parseStations_error_eof {b : List Nat} :
    ∀ (n off : Nat) {e : Err},
      parseStations b n off = Except.error e → ∃ k, e = Err.eof k := by
  intro n
  induction n with
  | zero =>
    intro off e h
    cases h
  | succ n ih =>
    intro off e h
    simp only [parseStations] at h
    split at h
    · rename_i e' heq
      injection h with h'
      rw [← h']
      exact parseStation_error_eof heq
    · rename_i s off1 heq
      split at h
      · rename_i e' heq2
        injection h with h'
        rw [← h']
        exact ih off1 heq2
      · cases h

theorem parseAreaIntensities_error_eof {b : List Nat} :
    ∀ (n off : Nat) {e : Err},
      parseAreaIntensities b n off = Except.error e → ∃ k, e = Err.eof k := by
  intro n
  induction n with
  | zero =>
    intro off e h
    cases h
  | succ n ih =>
    intro off e h
    simp only [parseAreaIntensities] at h
    split at h
    · rename_i e' heq
      injection h with h'
      rw [← h']
      exact parseAreaIntensity_error_eof heq
    · rename_i a off1 heq
      split at h
      · rename_i e' heq2
        injection h with h'
        rw [← h']
        exact ih off1 heq2
      · cases h

end RTS

namespace RTS

/-! ### Reads within bounds are unaffected by appending trailing bytes -/

theorem u8_append {b s : List Nat} {i : Nat} (h : i < b.length) :
    u8 (b ++ s) i = u8 b i := by
  unfold u8
  rw [List.getD_eq_getElem?_getD, List.getD_eq_getElem?_getD,
    List.getElem?_append_left h]

theorem readU8_append {b : List Nat} (s : List Nat) {off : Nat}
    {v off' : Nat} (h : readU8 b off = Except.ok (v, off')) :
    off' ≤ b.length ∧ readU8 (b ++ s) off = Except.ok (v, off') := by
  unfold readU8 at h ⊢
  split at h
  · cases h
  · rename_i heq
    have hb := checkBounds_ok.mp heq
    injection h with h'
    injection h' with hv hoff
    rw [← hv, ← hoff]
    refine ⟨by omega, ?_⟩
    rw [checkBounds_ok.mpr (by simp only [List.length_append]; omega),
      u8_append (by omega)]

theorem readU16_append {b : List Nat} (s : List Nat) {off : Nat}
    {v off' : Nat} (h : readU16 b off = Except.ok (v, off')) :
    off' ≤ b.length ∧ readU16 (b ++ s) off = Except.ok (v, off') := by
  unfold readU16 at h ⊢
  split at h
  · cases h
  · rename_i heq
    have hb := checkBounds_ok.mp heq
    injection h with h'
    injection h' with hv hoff
    rw [← hv, ← hoff]
    refine ⟨by omega, ?_⟩
    rw [checkBounds_ok.mpr (by simp only [List.length_append]; omega),
      u8_append (by omega), u8_append (by omega)]

theorem readU32_append {b : List Nat} (s : List Nat) {off : Nat}
    {v off' : Nat} (h : readU32 b off = Except.ok (v, off')) :
    off' ≤ b.length ∧ readU32 (b ++ s) off = Except.ok (v, off') := by
  unfold readU32 at h ⊢
  split at h
  · cases h
  · rename_i heq
    have hb := checkBounds_ok.mp heq
    injection h with h'
    injection h' with hv hoff
    rw [← hv, ← hoff]
    refine ⟨by omega, ?_⟩
    rw [checkBounds_ok.mpr (by simp only [List.length_append]; omega),
      u8_append (by omega), u8_append (by omega), u8_append (by omega),
      u8_append (by omega)]

theorem readTime40_append {b : List Nat} (s : List Nat) {off : Nat}
    {v : Int} {off' : Nat} (h : readTime40 b off = Except.ok (v, off')) :
    off' ≤ b.length ∧ readTime40 (b ++ s) off = Except.ok (v, off') := by
  unfold readTime40 at h ⊢
  split at h
  · cases h
  · rename_i heq
    have hb := checkBounds_ok.mp heq
    injection h with h'
    injection h' with hv hoff
    rw [← hv, ← hoff]
    refine ⟨by omega, ?_⟩
    rw [checkBounds_ok.mpr (by simp only [List.length_append]; omega)]
    unfold le40
    rw [u8_append (by omega), u8_append (by omega), u8_append (by omega),
      u8_append (by omega), u8_append (by omega)]

theorem readVarInt_append {b : List Nat} (s : List Nat) {off : Nat}
    {v : ℚ} {off' : Nat} (h : readVarInt b off = Except.ok (v, off')) :
    off' ≤ b.length ∧ readVarInt (b ++ s) off = Except.ok (v, off') := by
  unfold readVarInt at h ⊢
  split at h
  · cases h
  · rename_i marker off1 heq
    obtain ⟨hb1, heq'⟩ := readU8_append s heq
    rw [heq']
    dsimp only
    have hoff1 : off1 = off + 1 := by
      unfold readU8 at heq
      split at heq
      · cases heq
      · injection heq with h'
        injection h' with hv hoff
        omega
    by_cases h1 : marker ≤ 252
    · rw [if_pos h1] at h ⊢
      injection h with h'
      injection h' with hv hoff
      rw [← hv, ← hoff]
      exact ⟨by omega, rfl⟩
    · rw [if_neg h1] at h ⊢
      by_cases h2 : marker = 253
      · rw [if_pos h2] at h ⊢
        split at h
        · cases h
        · rename_i w off2 heq2
          obtain ⟨hb2, heq2'⟩ := readU16_append s heq2
          rw [heq2']
          injection h with h'
          injection h' with hv hoff
          rw [← hv, ← hoff]
          exact ⟨hb2, rfl⟩
      · rw [if_neg h2] at h ⊢
        by_cases h3 : marker = 254
        · rw [if_pos h3] at h ⊢
          split at h
          · cases h
          · rename_i heq2
            have hb2 := checkBounds_ok.mp heq2
            rw [checkBounds_ok.mpr (by simp only [List.length_append]; omega)]
            injection h with h'
            injection h' with hv hoff
            rw [← hv, ← hoff]
            refine ⟨by omega, ?_⟩
            rw [u8_append (by omega), u8_append (by omega), u8_append (by omega)]
        · rw [if_neg h3] at h ⊢
          injection h with h'
          injection h' with hv hoff
          rw [← hv, ← hoff]
          exact ⟨by omega, rfl⟩

theorem readIntensityAlert_append {b : List Nat} (s : List Nat) {off : Nat}
    {v : ℚ × Bool} {off' : Nat}
    (h : readIntensityAlert b off = Except.ok (v, off')) :
    off' ≤ b.length ∧ readIntensityAlert (b ++ s) off = Except.ok (v, off') := by
  unfold readIntensityAlert at h ⊢
  split at h
  · cases h
  · rename_i raw off1 heq
    obtain ⟨hb1, heq'⟩ := readU8_append s heq
    rw [heq']
    injection h with h'
    injection h' with hv hoff
    rw [← hv, ← hoff]
    exact ⟨hb1, rfl⟩

end RTS

namespace RTS

theorem parseStation_append {b : List Nat} (s : List Nat) {off : Nat}
    {st : Station} {off' : Nat}
    (h : parseStation b off = Except.ok (st, off')) :
    off' ≤ b.length ∧ parseStation (b ++ s) off = Except.ok (st, off') := by
  unfold parseStation at h ⊢
  split at h
  · cases h
  rename_i id off1 heq
  obtain ⟨hb1, heq'⟩ := readU32_append s heq
  rw [heq']
  dsimp only
  split at h
  · cases h
  rename_i pga off2 heq2
  obtain ⟨hb2, heq2'⟩ := readVarInt_append s heq2
  rw [heq2']
  dsimp only
  split at h
  · cases h
  rename_i pgv off3 heq3
  obtain ⟨hb3, heq3'⟩ := readVarInt_append s heq3
  rw [heq3']
  dsimp only
  split at h
  · cases h
  rename_i intensity isAlert off4 heq4
  obtain ⟨hb4, heq4'⟩ := readIntensityAlert_append s heq4
  rw [heq4']
  dsimp only
  injection h with h'
  injection h' with hv hoff
  rw [← hv, ← hoff]
  exact ⟨hb4, rfl⟩

theorem parseAreaIntensity_append {b : List Nat} (s : List Nat) {off : Nat}
    {a : AreaIntensity} {off' : Nat}
    (h : parseAreaIntensity b off = Except.ok (a, off')) :
    off' ≤ b.length ∧ parseAreaIntensity (b ++ s) off = Except.ok (a, off') := by
  unfold parseAreaIntensity at h ⊢
  split at h
  · cases h
  rename_i code off1 heq
  obtain ⟨hb1, heq'⟩ := readU16_append s heq
  rw [heq']
  dsimp only
  split at h
  · cases h
  rename_i rawI off2 heq2
  obtain ⟨hb2, heq2'⟩ := readU8_append s heq2
  rw [heq2']
  dsimp only
  injection h with h'
  injection h' with hv hoff
  rw [← hv, ← hoff]
  exact ⟨hb2, rfl⟩

theorem parseStations_append {b : List Nat} (s : List Nat) :
    ∀ (n off : Nat) {l : List Station} {off' : Nat},
      parseStations b n off = Except.ok (l, off') → off ≤ b.length →
      off' ≤ b.length ∧ parseStations (b ++ s) n off = Except.ok (l, off') := by
  intro n
  induction n with
  | zero =>
    intro off l off' h h0
    simp only [parseStations, Except.ok.injEq, Prod.mk.injEq] at h
    obtain ⟨hl, hoff⟩ := h
    rw [← hl, ← hoff]
    exact ⟨h0, rfl⟩
  | succ n ih =>
    intro off l off' h h0
    simp only [parseStations] at h ⊢
    split at h
    · cases h
    rename_i st off1 heq
    obtain ⟨hb1, heq'⟩ := parseStation_append s heq
    rw [heq']
    dsimp only
    split at h
    · cases h
    rename_i rest off2 heq2
    obtain ⟨hb2, heq2'⟩ := ih off1 heq2 hb1
    rw [heq2']
    dsimp only
    injection h with h'
    injection h' with hl hoff
    rw [← hl, ← hoff]
    exact ⟨hb2, rfl⟩

theorem parseAreaIntensities_append {b : List Nat} (s : List Nat) :
    ∀ (n off : Nat) {l : List AreaIntensity} {off' : Nat},
      parseAreaIntensities b n off = Except.ok (l, off') → off ≤ b.length →
      off' ≤ b.length ∧
        parseAreaIntensities (b ++ s) n off = Except.ok (l, off') := by
  intro n
  induction n with
  | zero =>
    intro off l off' h h0
    simp only [parseAreaIntensities, Except.ok.injEq, Prod.mk.injEq] at h
    obtain ⟨hl, hoff⟩ := h
    rw [← hl, ← hoff]
    exact ⟨h0, rfl⟩
  | succ n ih =>
    intro off l off' h h0
    simp only [parseAreaIntensities] at h ⊢
    split at h
    · cases h
    rename_i a off1 heq
    obtain ⟨hb1, heq'⟩ := parseAreaIntensity_append s heq
    rw [heq']
    dsimp only
    split at h
    · cases h
    rename_i rest off2 heq2
    obtain ⟨hb2, heq2'⟩ := ih off1 heq2 hb1
    rw [heq2']
    dsimp only
    injection h with h'
    injection h' with hl hoff
    rw [← hl, ← hoff]
    exact ⟨hb2, rfl⟩

theorem parse_append {b : List Nat} (s : List Nat) {d : RTSData}
    (h : parse b = Except.ok d) : parse (b ++ s) = Except.ok d := by
  unfold parse at h ⊢
  split at h
  · cases h
  rename_i version off0 heq
  obtain ⟨hb0, heq'⟩ := readU8_append s heq
  rw [heq']
  dsimp only
  by_cases hv : version ≠ SupportedVersion
  · rw [if_pos hv] at h
    cases h
  rw [if_neg hv] at h ⊢
  split at h
  · cases h
  rename_i ts off1 heq1
  obtain ⟨hb1, heq1'⟩ := readTime40_append s heq1
  rw [heq1']
  dsimp only
  split at h
  · cases h
  rename_i sc off2 heq2
  obtain ⟨hb2, heq2'⟩ := readU16_append s heq2
  rw [heq2']
  dsimp only
  split at h
  · cases h
  rename_i ic off3 heq3
  obtain ⟨hb3, heq3'⟩ := readU16_append s heq3
  rw [heq3']
  dsimp only
  split at h
  · cases h
  rename_i rsv off4 heq4
  obtain ⟨hb4, heq4'⟩ := readU16_append s heq4
  rw [heq4']
  dsimp only
  split at h
  · cases h
  rename_i stations off5 heq5
  obtain ⟨hb5, heq5'⟩ := parseStations_append s sc off4 heq5 hb4
  rw [heq5']
  dsimp only
  split at h
  · cases h
  rename_i areas off6 heq6
  obtain ⟨hb6, heq6'⟩ := parseAreaIntensities_append s ic off5 heq6 hb5
  rw [heq6']
  dsimp only
  exact h

end RTS

namespace RTS

theorem parse_ok_lengths {b : List Nat} {d : RTSData}
    (h : parse b = Except.ok d) :
    d.stations.length = d.header.stationCount ∧
      d.areaIntensities.length = d.header.intCount := by
  unfold parse at h
  split at h
  · cases h
  rename_i version off0 heq
  by_cases hv : version ≠ SupportedVersion
  · rw [if_pos hv] at h
    cases h
  rw [if_neg hv] at h
  split at h
  · cases h
  rename_i ts off1 heq1
  split at h
  · cases h
  rename_i sc off2 heq2
  split at h
  · cases h
  rename_i ic off3 heq3
  split at h
  · cases h
  rename_i rsv off4 heq4
  split at h
  · cases h
  rename_i stations off5 heq5
  split at h
  · cases h
  rename_i areas off6 heq6
  injection h with h'
  rw [← h']
  exact ⟨parseStations_length sc off4 heq5,
    parseAreaIntensities_length ic off5 heq6⟩

theorem parse_version_err {b : List Nat} (h1 : 1 ≤ b.length)
    (h2 : u8 b 0 ≠ 1) :
    parse b = Except.error (Err.unsupportedVersion (u8 b 0)) := by
  unfold parse
  rw [readU8_eq (show 0 + 1 ≤ b.length by omega)]
  dsimp only
  rw [if_pos (by simpa [SupportedVersion] using h2)]

theorem parse_version_ok_no_unsupported {b : List Nat} (h1 : 1 ≤ b.length)
    (h2 : u8 b 0 = 1) :
    ∀ v, parse b ≠ Except.error (Err.unsupportedVersion v) := by
  intro v hv
  unfold parse at hv
  rw [readU8_eq (show 0 + 1 ≤ b.length by omega), h2] at hv
  dsimp only at hv
  rw [if_neg (by simp [SupportedVersion])] at hv
  split at hv
  · rename_i e' heq
    injection hv with h'
    rw [readTime40_error_eof heq] at h'
    cases h'
  rename_i ts off1 heq1
  split at hv
  · rename_i e' heq
    injection hv with h'
    rw [readU16_error_eof heq] at h'
    cases h'
  rename_i sc off2 heq2
  split at hv
  · rename_i e' heq
    injection hv with h'
    rw [readU16_error_eof heq] at h'
    cases h'
  rename_i ic off3 heq3
  split at hv
  · rename_i e' heq
    injection hv with h'
    rw [readU16_error_eof heq] at h'
    cases h'
  rename_i rsv off4 heq4
  split at hv
  · rename_i e' heq
    injection hv with h'
    obtain ⟨k, hk⟩ := parseStations_error_eof sc off4 heq
    rw [hk] at h'
    cases h'
  rename_i stations off5 heq5
  split at hv
  · rename_i e' heq
    injection hv with h'
    obtain ⟨k, hk⟩ := parseAreaIntensities_error_eof ic off5 heq
    rw [hk] at h'
    cases h'
  rename_i areas off6 heq6
  cases hv

end RTS

namespace RTS

/-! ### Failure characterizations of the primitive readers -/

theorem checkBounds_err {b : List Nat} {off size : Nat}
    (h : b.length < off + size) :
    checkBounds b off size = Except.error (Err.eof size) := by
  unfold checkBounds
  rw [if_pos (by omega)]

theorem readU8_err {b : List Nat} {off : Nat} (h : b.length < off + 1) :
    readU8 b off = Except.error (Err.eof 1) := by
  unfold readU8
  rw [checkBounds_err h]

theorem readU16_err {b : List Nat} {off : Nat} (h : b.length < off + 2) :
    readU16 b off = Except.error (Err.eof 2) := by
  unfold readU16
  rw [checkBounds_err h]

theorem readU32_err {b : List Nat} {off : Nat} (h : b.length < off + 4) :
    readU32 b off = Except.error (Err.eof 4) := by
  unfold readU32
  rw [checkBounds_err h]

theorem readTime40_err {b : List Nat} {off : Nat} (h : b.length < off + 5) :
    readTime40 b off = Except.error (Err.eof 5) := by
  unfold readTime40
  rw [checkBounds_err h]

theorem readVarInt_fd_err {b : List Nat} {off : Nat} (h1 : off + 1 ≤ b.length)
    (hm : u8 b off = 0xFD) (h2 : b.length < off + 3) :
    readVarInt b off = Except.error (Err.eof 2) := by
  unfold readVarInt
  rw [readU8_eq h1, hm]
  dsimp only
  rw [if_neg (by norm_num), if_pos rfl, readU16_err (by omega)]

theorem readVarInt_fe_err {b : List Nat} {off : Nat} (h1 : off + 1 ≤ b.length)
    (hm : u8 b off = 0xFE) (h2 : b.length < off + 4) :
    readVarInt b off = Except.error (Err.eof 3) := by
  unfold readVarInt
  rw [readU8_eq h1, hm]
  dsimp only
  rw [if_neg (by norm_num), if_neg (by norm_num), if_pos rfl,
    checkBounds_err (by omega)]

end RTS

namespace RTS

/-! ### Claim theorems -/

/-- C1: for every byte source on which `parse` succeeds, the returned
document satisfies `stations.length = header.stationCount` and
`areaIntensities.length = header.intCount`; the record lists are built in
wire order (the record decoded first is the head of the list, and each
loop appends the remaining records decoded from the following offset);
and if a record fails to decode, the whole loop fails with that error, so
no partial document is ever returned. -/
theorem parse_record_counts_match_header :
    (∀ (b : List Nat) (d : RTSData), parse b = Except.ok d →
      d.stations.length = d.header.stationCount ∧
        d.areaIntensities.length = d.header.intCount) ∧
    (∀ (b : List Nat) (n off : Nat) (s : Station) (off1 : Nat)
        (rest : List Station) (off2 : Nat),
      parseStation b off = Except.ok (s, off1) →
      parseStations b n off1 = Except.ok (rest, off2) →
      parseStations b (n + 1) off = Except.ok (s :: rest, off2)) ∧
    (∀ (b : List Nat) (n off : Nat) (a : AreaIntensity) (off1 : Nat)
        (rest : List AreaIntensity) (off2 : Nat),
      parseAreaIntensity b off = Except.ok (a, off1) →
      parseAreaIntensities b n off1 = Except.ok (rest, off2) →
      parseAreaIntensities b (n + 1) off = Except.ok (a :: rest, off2)) ∧
    (∀ (b : List Nat) (n off : Nat) (e : Err),
      parseStation b off = Except.error e →
      parseStations b (n + 1) off = Except.error e) ∧
    (∀ (b : List Nat) (n off : Nat) (e : Err),
      parseAreaIntensity b off = Except.error e →
      parseAreaIntensities b (n + 1) off = Except.error e) :=
  ⟨fun _ _ h => parse_ok_lengths h,
   fun _ _ _ _ _ _ _ h1 h2 => parseStations_cons h1 h2,
   fun _ _ _ _ _ _ _ h1 h2 => parseAreaIntensities_cons h1 h2,
   fun _ _ _ _ h => parseStations_err h,
   fun _ _ _ _ h => parseAreaIntensities_err h⟩

/-- Witness for C1: the 12-byte header-only buffer with both counts 0
decodes, and its lists have the lengths announced in the header; and a
station loop over an empty source propagates the EOF error of its first
record. -/
theorem parse_record_counts_match_header_witness :
    ((⟨⟨1, 1767225600000, 0, 0, 0⟩, [], []⟩ : RTSData).stations.length
        = (⟨⟨1, 1767225600000, 0, 0, 0⟩, [], []⟩ : RTSData).header.stationCount ∧
      (⟨⟨1, 1767225600000, 0, 0, 0⟩, [], []⟩ : RTSData).areaIntensities.length
        = (⟨⟨1, 1767225600000, 0, 0, 0⟩, [], []⟩ : RTSData).header.intCount) ∧
    parseStations [] (0 + 1) 0 = Except.error (Err.eof 4) :=
  ⟨parse_record_counts_match_header.1 [1, 0, 0, 0, 0, 0, 0, 0, 0, 0, 0, 0] _
      (by decide),
   parse_record_counts_match_header.2.2.2.1 [] 0 0 (Err.eof 4) (by decide)⟩

/-- C2: `readVarInt` decodes marker bytes `0x00`–`0xFC` to `marker / 100`
consuming 1 byte; marker `0xFD` to the following little-endian u16 divided
by 100 consuming 3 bytes (`0xFD`, u16 150 gives 1.50); marker `0xFE` to
the following little-endian u24 divided by 100 consuming 4 bytes (`0xFE`,
u24 1000000 gives 10000.00); and marker `0xFF` to 0 consuming only the
marker byte. -/
theorem readVarInt_decoding_spec :
    (∀ (b : List Nat) (off : Nat), off + 1 ≤ b.length → u8 b off ≤ 0xFC →
      readVarInt b off = Except.ok ((u8 b off : ℚ) / 100, off + 1)) ∧
    (∀ (b : List Nat) (off : Nat), u8 b off = 0xFD → off + 3 ≤ b.length →
      readVarInt b off = Except.ok
        (((u8 b (off + 1) + u8 b (off + 2) * 2 ^ 8 : Nat) : ℚ) / 100,
          off + 3)) ∧
    (∀ (b : List Nat) (off : Nat), u8 b off = 0xFE → off + 4 ≤ b.length →
      readVarInt b off = Except.ok
        (((u8 b (off + 1) + u8 b (off + 2) * 2 ^ 8
          + u8 b (off + 3) * 2 ^ 16 : Nat) : ℚ) / 100, off + 4)) ∧
    (∀ (b : List Nat) (off : Nat), off + 1 ≤ b.length → u8 b off = 0xFF →
      readVarInt b off = Except.ok (0, off + 1)) ∧
    readVarInt [0xFD, 150, 0] 0 = Except.ok ((1.50 : ℚ), 3) ∧
    readVarInt [0xFE, 0x40, 0x42, 0x0F] 0 = Except.ok ((10000.00 : ℚ), 4) ∧
    readVarInt [50] 0 = Except.ok ((0.50 : ℚ), 1) := by
  refine ⟨fun b off h hm => readVarInt_small h hm,
    fun b off hm h => readVarInt_fd hm h,
    fun b off hm h => readVarInt_fe hm h,
    fun b off h hm => readVarInt_ff h hm, ?_, ?_, ?_⟩
  · rw [@readVarInt_fd [0xFD, 150, 0] 0 (by decide) (by decide)]
    norm_num [u8]
  · rw [@readVarInt_fe [0xFE, 0x40, 0x42, 0x0F] 0 (by decide)
      (by decide)]
    norm_num [u8]
  · rw [@readVarInt_small [50] 0 (by decide) (by decide)]
    norm_num [u8]

/-- Witness for C2: each of the four marker classes applied at a concrete
buffer. -/
theorem readVarInt_decoding_spec_witness :
    readVarInt [80] 0 = Except.ok ((u8 [80] 0 : ℚ) / 100, 1) ∧
    readVarInt [0xFD, 150, 0] 0 = Except.ok
      (((u8 [0xFD, 150, 0] 1 + u8 [0xFD, 150, 0] 2 * 2 ^ 8 : Nat) : ℚ) / 100,
        3) ∧
    readVarInt [0xFE, 0x40, 0x42, 0x0F] 0 = Except.ok
      (((u8 [0xFE, 0x40, 0x42, 0x0F] 1 + u8 [0xFE, 0x40, 0x42, 0x0F] 2 * 2 ^ 8
        + u8 [0xFE, 0x40, 0x42, 0x0F] 3 * 2 ^ 16 : Nat) : ℚ) / 100, 4) ∧
    readVarInt [0xFF] 0 = Except.ok (0, 1) :=
  ⟨readVarInt_decoding_spec.1 [80] 0 (by decide) (by decide),
   readVarInt_decoding_spec.2.1 [0xFD, 150, 0] 0 (by decide) (by decide),
   readVarInt_decoding_spec.2.2.1 [0xFE, 0x40, 0x42, 0x0F] 0 (by decide)
     (by decide),
   readVarInt_decoding_spec.2.2.2.1 [0xFF] 0 (by decide) (by decide)⟩

end RTS

namespace RTS

/-- C3: `readTime40` reads exactly 5 bytes (the cursor advances from `off`
to `off + 5`), combines them little-endian into a 40-bit value, subtracts
`2^40` exactly when bit 39 is set, and adds the epoch constant
1767225600000; the all-zero sequence decodes to exactly 1767225600000 and
the all-`0xFF` sequence to exactly 1767225599999, as exact integers. -/
theorem readTime40_decoding_spec :
    (∀ (b : List Nat) (off : Nat), IsByteList b → off + 5 ≤ b.length →
      readTime40 b off = Except.ok (1767225600000 +
        (((u8 b off + u8 b (off + 1) * 2 ^ 8 + u8 b (off + 2) * 2 ^ 16
          + u8 b (off + 3) * 2 ^ 24 + u8 b (off + 4) * 2 ^ 32 : Nat) : Int)
          - (if 2 ^ 39 ≤ u8 b off + u8 b (off + 1) * 2 ^ 8
              + u8 b (off + 2) * 2 ^ 16 + u8 b (off + 3) * 2 ^ 24
              + u8 b (off + 4) * 2 ^ 32 then 2 ^ 40 else 0)), off + 5)) ∧
    readTime40 [0, 0, 0, 0, 0] 0 = Except.ok (1767225600000, 5) ∧
    readTime40 [0xFF, 0xFF, 0xFF, 0xFF, 0xFF] 0
      = Except.ok (1767225599999, 5) := by
  refine ⟨fun b off hb h => ?_, by decide, by decide⟩
  rw [readTime40_eq hb h, le40_eq]
  rfl

/-- Witness for C3: the general decoding shape applied to the all-`0xFF`
buffer. -/
theorem readTime40_decoding_spec_witness :
    readTime40 [0xFF, 0xFF, 0xFF, 0xFF, 0xFF] 0 = Except.ok (1767225600000 +
      (((u8 [0xFF, 0xFF, 0xFF, 0xFF, 0xFF] 0
        + u8 [0xFF, 0xFF, 0xFF, 0xFF, 0xFF] 1 * 2 ^ 8
        + u8 [0xFF, 0xFF, 0xFF, 0xFF, 0xFF] 2 * 2 ^ 16
        + u8 [0xFF, 0xFF, 0xFF, 0xFF, 0xFF] 3 * 2 ^ 24
        + u8 [0xFF, 0xFF, 0xFF, 0xFF, 0xFF] 4 * 2 ^ 32 : Nat) : Int)
        - (if 2 ^ 39 ≤ u8 [0xFF, 0xFF, 0xFF, 0xFF, 0xFF] 0
            + u8 [0xFF, 0xFF, 0xFF, 0xFF, 0xFF] 1 * 2 ^ 8
            + u8 [0xFF, 0xFF, 0xFF, 0xFF, 0xFF] 2 * 2 ^ 16
            + u8 [0xFF, 0xFF, 0xFF, 0xFF, 0xFF] 3 * 2 ^ 24
            + u8 [0xFF, 0xFF, 0xFF, 0xFF, 0xFF] 4 * 2 ^ 32
            then 2 ^ 40 else 0)), 0 + 5) :=
  readTime40_decoding_spec.1 [0xFF, 0xFF, 0xFF, 0xFF, 0xFF] 0
    (by simp [IsByteList]) (by decide)

/-- C4: `readIntensityAlert` reads exactly 1 byte; the decoded intensity is
exactly `(rawByte &&& 0x7F) / 10 - 3` (the final rounding to one decimal
place is the identity on these values, which are exact multiples of 1/10),
and `isAlert` is true iff bit 7 of the byte is set; raw byte `0x64` yields
`(7.0, false)` and raw byte `0xE4` yields `(7.0, true)`. -/
theorem readIntensityAlert_decoding_spec :
    (∀ (b : List Nat) (off : Nat), off + 1 ≤ b.length →
      readIntensityAlert b off = Except.ok
        ((((u8 b off &&& 0x7F : Nat) : ℚ) / 10 - 3, (u8 b off).testBit 7),
          off + 1)) ∧
    readIntensityAlert [0x64] 0 = Except.ok ((7, false), 1) ∧
    readIntensityAlert [0xE4] 0 = Except.ok ((7, true), 1) := by
  refine ⟨fun b off h => readIntensityAlert_eq h, ?_, ?_⟩
  · rw [readIntensityAlert_eq (b := [0x64]) (by decide)]
    norm_num [u8, show (100 &&& 127 : Nat) = 100 from by decide,
      show Nat.testBit 100 7 = false from by decide]
  · rw [readIntensityAlert_eq (b := [0xE4]) (by decide)]
    norm_num [u8, show (228 &&& 127 : Nat) = 100 from by decide,
      show Nat.testBit 228 7 = true from by decide]

/-- Witness for C4: the general decoding shape applied to the byte `0xE4`. -/
theorem readIntensityAlert_decoding_spec_witness :
    readIntensityAlert [0xE4] 0 = Except.ok
      ((((u8 [0xE4] 0 &&& 0x7F : Nat) : ℚ) / 10 - 3,
        (u8 [0xE4] 0).testBit 7), 0 + 1) :=
  readIntensityAlert_decoding_spec.1 [0xE4] 0 (by decide)

end RTS

namespace RTS

/-- C5 counterexample: two area-intensity records whose raw bytes agree on
bits 0–6 (`0x00` and `0x80`) decode to different intensities (−3.0 and
9.8), so the decoded area intensity does NOT depend only on the low 7 bits
of the raw byte. -/
theorem areaIntensity_bit7_counterexample :
    ¬ (∀ (c1 c2 : List Nat) (n1 n2 : Nat) (r1 r2 : AreaIntensity × Nat),
        parseAreaIntensity c1 n1 = Except.ok r1 →
        parseAreaIntensity c2 n2 = Except.ok r2 →
        u8 c1 (n1 + 2) &&& 0x7F = u8 c2 (n2 + 2) &&& 0x7F →
        r1.1.intensity = r2.1.intensity) := by
  intro hclaim
  have h1 : parseAreaIntensity [0, 0, 0] 0 = Except.ok (⟨0, -3⟩, 3) := by
    rw [parseAreaIntensity_eq (by decide)]
    norm_num [u8]
  have h2 : parseAreaIntensity [0, 0, 128] 0 = Except.ok (⟨0, 49 / 5⟩, 3) := by
    rw [parseAreaIntensity_eq (by decide)]
    norm_num [u8]
  have hlow : u8 [0, 0, 0] (0 + 2) &&& 0x7F = u8 [0, 0, 128] (0 + 2) &&& 0x7F :=
    by decide
  have := hclaim [0, 0, 0] [0, 0, 128] 0 0 _ _ h1 h2 hlow
  norm_num at this

/-- C5 amended: the decoded area intensity is computed from the FULL raw
byte — `parseAreaIntensity` returns intensity exactly `rawByte / 10 - 3`
(so bit 7 of the byte does change the decoded value when set), and no
validation or masking of bit 7 is performed: the record decodes
successfully for every byte value, bit 7 set or clear. -/
theorem parseAreaIntensity_full_byte_spec :
    ∀ (b : List Nat) (off : Nat), off + 3 ≤ b.length →
      parseAreaIntensity b off = Except.ok
        (⟨u8 b off + u8 b (off + 1) * 2 ^ 8,
          ((u8 b (off + 2) : Nat) : ℚ) / 10 - 3⟩, off + 3) :=
  fun _ _ h => parseAreaIntensity_eq h

/-- Witness for the amended C5: a concrete record with bit 7 of the raw
intensity byte set decodes with the full-byte formula. -/
theorem parseAreaIntensity_full_byte_spec_witness :
    parseAreaIntensity [0, 0, 128] 0 = Except.ok
      (⟨u8 [0, 0, 128] 0 + u8 [0, 0, 128] (0 + 1) * 2 ^ 8,
        ((u8 [0, 0, 128] (0 + 2) : Nat) : ℚ) / 10 - 3⟩, 0 + 3) :=
  parseAreaIntensity_full_byte_spec [0, 0, 128] 0 (by decide)

/-- C6: if the first byte of the source is any value other than 1, `parse`
fails with an error carrying that version number — for a source of any
length at least 1, so the check happens before any header field is read;
if the first byte equals 1, `parse` can never fail with an
unsupported-version error. -/
theorem parse_version_check_spec :
    (∀ b : List Nat, 1 ≤ b.length → u8 b 0 ≠ 1 →
      parse b = Except.error (Err.unsupportedVersion (u8 b 0))) ∧
    (∀ b : List Nat, 1 ≤ b.length → u8 b 0 = 1 →
      ∀ v, parse b ≠ Except.error (Err.unsupportedVersion v)) :=
  ⟨fun _ h1 h2 => parse_version_err h1 h2,
   fun _ h1 h2 => parse_version_ok_no_unsupported h1 h2⟩

/-- Witness for C6: the one-byte buffer `[0x02]` is rejected with the
offending version number (nothing after the version byte even exists to be
read), and a version-1 buffer never produces an unsupported-version
error. -/
theorem parse_version_check_spec_witness :
    parse [2] = Except.error (Err.unsupportedVersion (u8 [2] 0)) ∧
    parse [1] ≠ Except.error (Err.unsupportedVersion 1) :=
  ⟨parse_version_check_spec.1 [2] (by decide) (by decide),
   parse_version_check_spec.2 [1] (by decide) (by decide) 1⟩

/-- C7 counterexample: the decoder fails on `[0x01, 0x00]` (1 byte left for
the 5-byte timestamp) and on `[0x01, 0x00, 0x00]` (2 bytes left) with the
SAME error value `eof 5`, whose rendered message mentions only the 5
required bytes — so the EOF error does not report the number of bytes
available at the point of failure, contrary to the claim. -/
theorem eof_error_lacks_available_count :
    parse [1, 0] = Except.error (Err.eof 5) ∧
    parse [1, 0, 0] = Except.error (Err.eof 5) ∧
    (Err.eof 5).message = "Unexpected EOF: expected 5 bytes" :=
  ⟨by decide, by decide, rfl⟩

/-- C7 amended: whenever a primitive read requires more bytes than remain,
decoding aborts immediately with an EOF error that reports the number of
bytes required by that read (but not the number of bytes available). -/
theorem eof_error_reports_required_size :
    (∀ (b : List Nat) (off : Nat), b.length < off + 1 →
      readU8 b off = Except.error (Err.eof 1)) ∧
    (∀ (b : List Nat) (off : Nat), b.length < off + 2 →
      readU16 b off = Except.error (Err.eof 2)) ∧
    (∀ (b : List Nat) (off : Nat), b.length < off + 4 →
      readU32 b off = Except.error (Err.eof 4)) ∧
    (∀ (b : List Nat) (off : Nat), b.length < off + 5 →
      readTime40 b off = Except.error (Err.eof 5)) ∧
    (∀ (b : List Nat) (off : Nat), off + 1 ≤ b.length → u8 b off = 0xFD →
      b.length < off + 3 → readVarInt b off = Except.error (Err.eof 2)) ∧
    (∀ (b : List Nat) (off : Nat), off + 1 ≤ b.length → u8 b off = 0xFE →
      b.length < off + 4 → readVarInt b off = Except.error (Err.eof 3)) ∧
    (∀ (b : List Nat) (off : Nat), b.length < off + 1 →
      readIntensityAlert b off = Except.error (Err.eof 1)) :=
  ⟨fun _ _ h => readU8_err h,
   fun _ _ h => readU16_err h,
   fun _ _ h => readU32_err h,
   fun _ _ h => readTime40_err h,
   fun _ _ h1 hm h2 => readVarInt_fd_err h1 hm h2,
   fun _ _ h1 hm h2 => readVarInt_fe_err h1 hm h2,
   fun _ _ h => by unfold readIntensityAlert; rw [readU8_err h]⟩

/-- Witness for the amended C7: each failing primitive read at a concrete
truncated buffer reports its own required size. -/
theorem eof_error_reports_required_size_witness :
    readU8 [] 0 = Except.error (Err.eof 1) ∧
    readU16 [7] 0 = Except.error (Err.eof 2) ∧
    readU32 [7, 7] 0 = Except.error (Err.eof 4) ∧
    readTime40 [7, 7] 0 = Except.error (Err.eof 5) ∧
    readVarInt [0xFD, 7] 0 = Except.error (Err.eof 2) ∧
    readVarInt [0xFE, 7] 0 = Except.error (Err.eof 3) ∧
    readIntensityAlert [] 0 = Except.error (Err.eof 1) :=
  ⟨eof_error_reports_required_size.1 [] 0 (by decide),
   eof_error_reports_required_size.2.1 [7] 0 (by decide),
   eof_error_reports_required_size.2.2.1 [7, 7] 0 (by decide),
   eof_error_reports_required_size.2.2.2.1 [7, 7] 0 (by decide),
   eof_error_reports_required_size.2.2.2.2.1 [0xFD, 7] 0 (by decide)
     (by decide) (by decide),
   eof_error_reports_required_size.2.2.2.2.2.1 [0xFE, 7] 0 (by decide)
     (by decide) (by decide),
   eof_error_reports_required_size.2.2.2.2.2.2 [] 0 (by decide)⟩

end RTS

namespace RTS

/-- C8: a buffer holding only the version byte 1 and 2 bytes of the
timestamp fails with an end-of-input error (whatever those 2 bytes are),
and in general `parse` returns either a complete document or an error —
by the shape of its result type there is no third outcome and an error
carries no document. -/
theorem parse_truncated_header_fails :
    (∀ t0 t1 : Nat, parse [1, t0, t1] = Except.error (Err.eof 5)) ∧
    (∀ b : List Nat,
      (∃ d, parse b = Except.ok d) ∨ (∃ e, parse b = Except.error e)) := by
  constructor
  · intro t0 t1
    unfold parse
    rw [readU8_eq (by simp), show u8 [1, t0, t1] 0 = 1 from rfl]
    dsimp only
    rw [if_neg (by simp [SupportedVersion]), readTime40_err (by simp)]
  · intro b
    cases h : parse b with
    | ok d => exact Or.inl ⟨d, rfl⟩
    | error e => exact Or.inr ⟨e, rfl⟩

/-- C9: `parse` is deterministic — two runs over equal byte contents give
structurally equal documents, or equal errors. -/
theorem parse_deterministic :
    ∀ c1 c2 : List Nat, c1 = c2 →
      (∀ d1 d2 : RTSData, parse c1 = Except.ok d1 → parse c2 = Except.ok d2 →
        d1 = d2) ∧
      (∀ e1 e2 : Err, parse c1 = Except.error e1 →
        parse c2 = Except.error e2 → e1 = e2) := by
  rintro c1 c2 rfl
  constructor
  · intro d1 d2 h1 h2
    rw [h1] at h2
    injection h2
  · intro e1 e2 h1 h2
    rw [h1] at h2
    injection h2

/-- Witness for C9: two decodes of the same concrete 12-byte buffer give
the same document. -/
theorem parse_deterministic_witness :
    (⟨⟨1, 1767225600000, 0, 0, 0⟩, [], []⟩ : RTSData)
      = ⟨⟨1, 1767225600000, 0, 0, 0⟩, [], []⟩ :=
  (parse_deterministic [1, 0, 0, 0, 0, 0, 0, 0, 0, 0, 0, 0]
      [1, 0, 0, 0, 0, 0, 0, 0, 0, 0, 0, 0] rfl).1 _ _ (by decide) (by decide)

/-- C10: the decoder never reads past the bytes required by the header
counts — appending any suffix of trailing bytes to a buffer on which
`parse` succeeds leaves the decoded document unchanged, and never causes
an error. -/
theorem parse_ignores_trailing_bytes :
    ∀ (b s : List Nat) (d : RTSData), parse b = Except.ok d →
      parse (b ++ s) = Except.ok d :=
  fun _ s _ h => parse_append s h

/-- Witness for C10: appending junk bytes to a concrete well-formed buffer
does not change the decode result. -/
theorem parse_ignores_trailing_bytes_witness :
    parse ([1, 0, 0, 0, 0, 0, 0, 0, 0, 0, 0, 0] ++ [9, 9, 9])
      = Except.ok ⟨⟨1, 1767225600000, 0, 0, 0⟩, [], []⟩ :=
  parse_ignores_trailing_bytes [1, 0, 0, 0, 0, 0, 0, 0, 0, 0, 0, 0] [9, 9, 9]
    _ (by decide)

end RTS
